import Mathlib

/-!
Verification development for the `tsc-files` command-line wrapper
(`src/cli.js`).  The program synthesizes a transient `tsconfig` scoped to
the files named on the command line, writes it under a fingerprint-derived
name, invokes `tsc -p <transient>` forwarding the remaining arguments,
removes the transient file (and the derived `.tsbuildinfo` cache) on every
exit pathway, and relays the child's exit status.

The development shallowly embeds the script:

* a value-level JSON model for the loaded configuration and the config
  synthesis of lines 82-110 (`temporaryTsconfig`, the two hashing rounds,
  and the derived artifact paths);
* the argv scanning of lines 37-72 (`files`, `argvProjectIndex`,
  `remainingArgvToForward`, the help condition);
* the checker-resolution / spawn / exit tail of lines 132-174;
* the cleanup handler of lines 113-130 as a transition on an explicit
  filesystem-and-flag state;
* a small heap model with explicit object references for the aliasing
  behaviour of the object spreads and of the in-place assignment
  `temporaryTsconfig.compilerOptions.tsBuildInfoFile = ...` (line 97).

The MD5 hex digest is not re-implemented; the model is parameterized by an
arbitrary `hash : String → String`, and statements about collision
resistance take injectivity of that parameter as a hypothesis, matching
the spec's "at the fingerprint's strength".
-/

namespace TscFiles

/-! ### Association-list field operations

JS objects are modelled as association lists of string keys.  Objects
produced by evaluating a literal have distinct keys; `setField` mirrors JS
property definition: overriding an existing key keeps its position,
a new key is appended. `lookupField` is ordinary first-match lookup. -/

def lookupField {α : Type} : List (String × α) → String → Option α
  | [], _ => none
  | (k', v) :: rest, k => if k' = k then some v else lookupField rest k

def setField {α : Type} : List (String × α) → String → α → List (String × α)
  | [], k, v => [(k, v)]
  | (k', v') :: rest, k, v =>
    if k' = k then (k, v) :: rest else (k', v') :: setField rest k v

/-! ### JSON values

The configuration document (the result of evaluating the config file
content as a JS expression, line 79) is modelled as a JSON value.
Numbers are modelled as integers (the program never computes with them). -/

inductive JSON : Type where
  | null : JSON
  | bool : Bool → JSON
  | num : Int → JSON
  | str : String → JSON
  | arr : List JSON → JSON
  | obj : List (String × JSON) → JSON

mutual

def decEqJSON : (a b : JSON) → Decidable (a = b)
  | .null, .null => isTrue rfl
  | .null, .bool _ => isFalse (fun h => nomatch h)
  | .null, .num _ => isFalse (fun h => nomatch h)
  | .null, .str _ => isFalse (fun h => nomatch h)
  | .null, .arr _ => isFalse (fun h => nomatch h)
  | .null, .obj _ => isFalse (fun h => nomatch h)
  | .bool _, .null => isFalse (fun h => nomatch h)
  | .bool a, .bool b =>
    match Bool.decEq a b with
    | isTrue h => isTrue (by rw [h])
    | isFalse h => isFalse (fun hh => h (by injection hh))
  | .bool _, .num _ => isFalse (fun h => nomatch h)
  | .bool _, .str _ => isFalse (fun h => nomatch h)
  | .bool _, .arr _ => isFalse (fun h => nomatch h)
  | .bool _, .obj _ => isFalse (fun h => nomatch h)
  | .num _, .null => isFalse (fun h => nomatch h)
  | .num _, .bool _ => isFalse (fun h => nomatch h)
  | .num a, .num b =>
    match Int.instDecidableEq a b with
    | isTrue h => isTrue (by rw [h])
    | isFalse h => isFalse (fun hh => h (by injection hh))
  | .num _, .str _ => isFalse (fun h => nomatch h)
  | .num _, .arr _ => isFalse (fun h => nomatch h)
  | .num _, .obj _ => isFalse (fun h => nomatch h)
  | .str _, .null => isFalse (fun h => nomatch h)
  | .str _, .bool _ => isFalse (fun h => nomatch h)
  | .str _, .num _ => isFalse (fun h => nomatch h)
  | .str a, .str b =>
    match String.decEq a b with
    | isTrue h => isTrue (by rw [h])
    | isFalse h => isFalse (fun hh => h (by injection hh))
  | .str _, .arr _ => isFalse (fun h => nomatch h)
  | .str _, .obj _ => isFalse (fun h => nomatch h)
  | .arr _, .null => isFalse (fun h => nomatch h)
  | .arr _, .bool _ => isFalse (fun h => nomatch h)
  | .arr _, .num _ => isFalse (fun h => nomatch h)
  | .arr _, .str _ => isFalse (fun h => nomatch h)
  | .arr xs, .arr ys =>
    match decEqJSONList xs ys with
    | isTrue h => isTrue (by rw [h])
    | isFalse h => isFalse (fun hh => h (by injection hh))
  | .arr _, .obj _ => isFalse (fun h => nomatch h)
  | .obj _, .null => isFalse (fun h => nomatch h)
  | .obj _, .bool _ => isFalse (fun h => nomatch h)
  | .obj _, .num _ => isFalse (fun h => nomatch h)
  | .obj _, .str _ => isFalse (fun h => nomatch h)
  | .obj _, .arr _ => isFalse (fun h => nomatch h)
  | .obj fs, .obj gs =>
    match decEqJSONFields fs gs with
    | isTrue h => isTrue (by rw [h])
    | isFalse h => isFalse (fun hh => h (by injection hh))

def decEqJSONList : (xs ys : List JSON) → Decidable (xs = ys)
  | [], [] => isTrue rfl
  | [], _ :: _ => isFalse (fun h => nomatch h)
  | _ :: _, [] => isFalse (fun h => nomatch h)
  | x :: xs, y :: ys =>
    match decEqJSON x y, decEqJSONList xs ys with
    | isTrue h1, isTrue h2 => isTrue (by rw [h1, h2])
    | isFalse h1, _ => isFalse (fun hh => h1 (by injection hh))
    | _, isFalse h2 => isFalse (fun hh => h2 (by injection hh))

def decEqJSONFields : (fs gs : List (String × JSON)) → Decidable (fs = gs)
  | [], [] => isTrue rfl
  | [], _ :: _ => isFalse (fun h => nomatch h)
  | _ :: _, [] => isFalse (fun h => nomatch h)
  | (k, v) :: fs, (k', v') :: gs =>
    match String.decEq k k', decEqJSON v v', decEqJSONFields fs gs with
    | isTrue h0, isTrue h1, isTrue h2 => isTrue (by rw [h0, h1, h2])
    | isFalse h0, _, _ =>
      isFalse (fun hh => h0 (by injection hh with h3 h4; exact (Prod.mk.injEq .. ▸ h3).1))
    | _, isFalse h1, _ =>
      isFalse (fun hh => h1 (by injection hh with h3 h4; exact (Prod.mk.injEq .. ▸ h3).2))
    | _, _, isFalse h2 => isFalse (fun hh => h2 (by injection hh))

end

instance : DecidableEq JSON := decEqJSON

/-- Errors a synthesis step can raise (an uncaught JS `TypeError`). -/
inductive JsError : Type where
  | typeError : JsError
deriving DecidableEq

instance exceptDecEq {ε α : Type} [DecidableEq ε] [DecidableEq α] :
    DecidableEq (Except ε α)
  | .error e, .error e' =>
    if h : e = e' then isTrue (by rw [h])
    else isFalse (fun hh => h (by injection hh))
  | .error _, .ok _ => isFalse (fun h => nomatch h)
  | .ok _, .error _ => isFalse (fun h => nomatch h)
  | .ok a, .ok b =>
    if h : a = b then isTrue (by rw [h])
    else isFalse (fun hh => h (by injection hh))

/-- Own enumerable properties copied by a JS object spread `{...v}`:
object fields are copied, array elements and string characters become
index-keyed fields, `null` and other primitives spread to nothing. -/
def spreadFields : JSON → List (String × JSON)
  | .obj fs => fs
  | .arr xs => (xs.enum.map fun p => (toString p.1, p.2))
  | .str s => (s.data.enum.map fun p => (toString p.1, JSON.str (String.singleton p.2)))
  | _ => []

/-- JS member access `v.k` (for a non-index key `k`): throws a `TypeError`
on `null`, returns the field on objects, and `undefined` (here `none`)
on every other value.  (Index properties of arrays and strings are not
modelled; the program only reads the non-index key `"compilerOptions"`.) -/
def member : JSON → String → Except JsError (Option JSON)
  | .null, _ => .error .typeError
  | .obj fs, k => .ok (lookupField fs k)
  | _, _ => .ok none

/-! ### JSON serialization

`JSON.stringify` in its compact form (line 93, the first hashing round)
and with indent 2 (line 100, `JSON.stringify(temporaryTsconfig, null, 2)`,
the on-disk content and the second hashing round).  Literal braces in the
output are written with character escapes. -/

def hexDigit (n : Nat) : Char :=
  if n < 10 then Char.ofNat (48 + n) else Char.ofNat (87 + n)

/-- JSON string escaping as performed by `JSON.stringify`. -/
def escapeChar (c : Char) : String :=
  if c = Char.ofNat 34 then "\\\""
  else if c = Char.ofNat 92 then "\\\\"
  else if c = Char.ofNat 8 then "\\b"
  else if c = Char.ofNat 12 then "\\f"
  else if c = Char.ofNat 10 then "\\n"
  else if c = Char.ofNat 13 then "\\r"
  else if c = Char.ofNat 9 then "\\t"
  else if c.toNat < 32 then
    "\\u00" ++ String.singleton (hexDigit (c.toNat / 16))
      ++ String.singleton (hexDigit (c.toNat % 16))
  else String.singleton c

def quoteStr (s : String) : String :=
  "\"" ++ String.join (s.data.map escapeChar) ++ "\""

/-- Compact `JSON.stringify` (no gap), used for the first fingerprint
(lines 91-94). -/
def stringifyCompact : JSON → String
  | .null => "null"
  | .bool true => "true"
  | .bool false => "false"
  | .num n => toString n
  | .str s => quoteStr s
  | .arr xs => "[" ++ String.intercalate "," (goList xs) ++ "]"
  | .obj fs => "\x7b" ++ String.intercalate "," (goFields fs) ++ "\x7d"
where
  goList : List JSON → List String
    | [] => []
    | x :: xs => stringifyCompact x :: goList xs
  goFields : List (String × JSON) → List String
    | [] => []
    | (k, v) :: fs => (quoteStr k ++ ":" ++ stringifyCompact v) :: goFields fs

def indentOf : Nat → String
  | 0 => ""
  | n + 1 => indentOf n ++ "  "

/-- Pretty `JSON.stringify(·, null, 2)` at nesting depth `d` (line 100). -/
def stringifyPretty (d : Nat) : JSON → String
  | .null => "null"
  | .bool true => "true"
  | .bool false => "false"
  | .num n => toString n
  | .str s => quoteStr s
  | .arr [] => "[]"
  | .arr (x :: xs) =>
    "[\n" ++ String.intercalate ",\n" (goList (d + 1) (x :: xs))
      ++ "\n" ++ indentOf d ++ "]"
  | .obj [] => "\x7b\x7d"
  | .obj (f :: fs) =>
    "\x7b\n" ++ String.intercalate ",\n" (goFields (d + 1) (f :: fs))
      ++ "\n" ++ indentOf d ++ "\x7d"
where
  goList : Nat → List JSON → List String
    | _, [] => []
    | d', x :: xs => (indentOf d' ++ stringifyPretty d' x) :: goList d' xs
  goFields : Nat → List (String × JSON) → List String
    | _, [] => []
    | d', (k, v) :: fs =>
      (indentOf d' ++ quoteStr k ++ ": " ++ stringifyPretty d' v) :: goFields d' fs

/-! ### Command-line scanning (lines 37-72) -/

/-- The file-extension test `/\.(c|m)?(j|t)sx?$/.test file` (line 47):
an unanchored `test` with a `$` anchor holds exactly when the argument
ends in one of these twelve suffixes. -/
def recognizedSuffixes : List String :=
  [".js", ".ts", ".jsx", ".tsx", ".cjs", ".cts", ".cjsx", ".ctsx",
   ".mjs", ".mts", ".mjsx", ".mtsx"]

/-- Whether `suf` is a suffix of `s` (computed on the character lists). -/
def strEndsWith (s suf : String) : Bool :=
  decide (suf.data.length ≤ s.data.length)
    && decide (s.data.drop (s.data.length - suf.data.length) = suf.data)

def isRecognizedFile (s : String) : Bool :=
  recognizedSuffixes.any (fun suf => strEndsWith s suf)

/-- Line 47: `const files = argv.filter(...)`. -/
def files (argv : List String) : List String := argv.filter isRecognizedFile

/-- Lines 40-42: `argv.findIndex(a => ['-p','--project'].includes(a))`;
`none` models the `-1` result. -/
def argvProjectIndex (argv : List String) : Option Nat :=
  argv.findIdx? (fun a => a == "-p" || a == "--project")

/-- Lines 43-44: `argv[argvProjectIndex + 1]`; `none` models `undefined`
(index `-1` or a trailing flag with no value). -/
def argvProjectValue (argv : List String) : Option String :=
  match argvProjectIndex argv with
  | none => none
  | some i => argv[i + 1]?

/-- The help condition of line 48. -/
def showHelp (argv : List String) : Bool :=
  argv.contains "-h" || argv.contains "--help" || (files argv).isEmpty

/-- Lines 67-72: filter out every argument textually contained in `files`,
then `splice(argvProjectIndex, 2)` — note the index was computed in the
unfiltered `argv` but is applied to the filtered list. -/
def remainingArgvToForward (argv : List String) : List String :=
  let r := argv.filter (fun a => !(files argv).contains a)
  match argvProjectIndex argv with
  | none => r
  | some i => r.take i ++ r.drop (i + 2)

/-- Line 34: `path.join(process.cwd(), name)`; the normalization of a
leading `./` performed by `path.join` is pre-applied to the names passed
below. -/
def resolveFromRoot (cwd name : String) : String := cwd ++ "/" ++ name

/-- Line 75: `argvProjectValue || resolveFromRoot('tsconfig.json')`;
`undefined` and the empty string are falsy. -/
def tsconfigPathOf (cwd : String) (argv : List String) : String :=
  match argvProjectValue argv with
  | some v => if v = "" then resolveFromRoot cwd "tsconfig.json" else v
  | none => resolveFromRoot cwd "tsconfig.json"

/-! ### Config synthesis and artifact naming (lines 82-110) -/

def spreadOptFields : Option JSON → List (String × JSON)
  | none => []
  | some v => spreadFields v

/-- The object literal of lines 82-90:
`{...tsconfig, compilerOptions: {...tsconfig.compilerOptions,
skipLibCheck: true}, files, include: []}`.  Throws (uncaught) exactly when
reading `tsconfig.compilerOptions` throws, i.e. when the evaluated
document is `null`. -/
def temporaryTsconfig (tsconfig : JSON) (fileList : List String) :
    Except JsError JSON := do
  let co ← member tsconfig "compilerOptions"
  pure (JSON.obj
    (setField
      (setField
        (setField (spreadFields tsconfig)
          "compilerOptions"
          (JSON.obj (setField (spreadOptFields co) "skipLibCheck" (JSON.bool true))))
        "files" (JSON.arr (fileList.map JSON.str)))
      "include" (JSON.arr [])))

def tsBuildInfoFileName (h : String) : String :=
  "tsc-files-" ++ h ++ ".tsbuildinfo"

def temporaryTsconfigFileName (h : String) : String :=
  "tsconfig.tsc-files-" ++ h ++ ".json"

/-- Line 97, `temporaryTsconfig.compilerOptions.tsBuildInfoFile = ...`,
as a value-level update (aliasing is treated in the heap model below).
A `TypeError` is raised when `compilerOptions` is not an object (property
assignment on a primitive / `undefined` in strict mode); in the program's
flow it is always the object literal just built. -/
def setTsBuildInfoFile (t : JSON) (p : String) : Except JsError JSON := do
  let co ← member t "compilerOptions"
  match t, co with
  | JSON.obj tfs, some (JSON.obj cofs) =>
    pure (JSON.obj (setField tfs "compilerOptions"
      (JSON.obj (setField cofs "tsBuildInfoFile" (JSON.str p)))))
  | _, _ => throw .typeError

/-- The observable products of lines 82-110. -/
structure SynthesisResult where
  config : JSON        -- `temporaryTsconfig` after the line-97 assignment
  content : String     -- `temporaryTsconfigContent` (line 100)
  finalHash : String   -- `temporaryTsconfigHash` after re-hashing (lines 101-104)
  tmpPath : String     -- `temporaryTsconfigPath` (lines 107-109)
  buildInfoPath : String  -- the embedded `tsBuildInfoFile` path (lines 97-99)
deriving DecidableEq

/-- Lines 82-110 end to end, parameterized by the digest function `hash`
(the MD5 hex digest in the program). -/
def synthesize (hash : String → String) (cwd : String) (tsconfig : JSON)
    (fileList : List String) : Except JsError SynthesisResult := do
  let t ← temporaryTsconfig tsconfig fileList
  let h1 := hash (stringifyCompact t)
  let buildInfoPath := resolveFromRoot cwd (tsBuildInfoFileName h1)
  let t2 ← setTsBuildInfoFile t buildInfoPath
  let content := stringifyPretty 0 t2
  let h2 := hash content
  pure { config := t2, content := content, finalHash := h2,
         tmpPath := resolveFromRoot cwd (temporaryTsconfigFileName h2),
         buildInfoPath := buildInfoPath }

/-! ### Resolution, spawn and exit relay (lines 132-174) -/

/-- Environment facts the script consults after synthesis. -/
structure ProgEnv where
  cwd : String
  hash : String → String
  tsconfigDoc : JSON        -- result of evaluating the loaded config (line 79)
  pnp : Bool                -- `process.versions['pnp']` is set (line 134)
  tscDotBinExists : Bool    -- `../.bin/tsc` layout exists (lines 137-142)
  tscBinExists : Bool       -- `./bin/tsc` layout exists (lines 143-147)
  spawnStatus : Option Int  -- `result.status`; `none` models `null` (line 167)

/-- The per-invocation observable outcome of the script. -/
inductive ProgOutcome where
  | helpExit (code : Int)   -- usage printed then `process.exit(0)` (lines 48-64);
                            -- no artifact is written and no child is spawned
  | synthesisError (e : JsError)  -- uncaught throw during lines 79-110
  | resolveFail (stderrLine : String) (code : Int)   -- lines 149-152
  | spawnFail (stderrLine : String) (code : Int) (spawnArgs : List String)  -- lines 167-171
  | completed (code : Int) (spawnArgs : List String) -- line 174: exit with the child's status
deriving DecidableEq

/-- Lines 132-153: `tsc` resolves iff PnP is active or one of the two
package layouts exists. -/
def tscResolved (env : ProgEnv) : Bool :=
  env.pnp || env.tscDotBinExists || env.tscBinExists

/-- The script end to end (modulo the cleanup handlers, modelled
separately): help dispatch, synthesis, write, resolution, spawn with
`['-p', temporaryTsconfigPath, ...remainingArgvToForward]` (line 158),
and exit-status relay. -/
def program (env : ProgEnv) (argv : List String) : ProgOutcome :=
  if showHelp argv then .helpExit 0
  else
    match synthesize env.hash env.cwd env.tsconfigDoc (files argv) with
    | .error e => .synthesisError e
    | .ok r =>
      if !tscResolved env then .resolveFail "Failed to resolve tsc executable." 1
      else
        let spawnArgs := "-p" :: r.tmpPath :: remainingArgvToForward argv
        match env.spawnStatus with
        | none => .spawnFail "Failed to spawn tsc." 1 spawnArgs
        | some c => .completed c spawnArgs

/-! ### The cleanup handlers (lines 113-130)

One listener body is registered for `exit`, `SIGHUP`, `SIGINT` and
`SIGTERM`.  Its argument is the exit code for the `exit` event and the
signal name for signal events; for signal events it re-enters
`process.exit` with that argument.  The filesystem is modelled as the
list of existing paths. -/

inductive Signal where
  | sighup | sigint | sigterm
deriving DecidableEq

inductive Event where
  | exitEvent (code : Int)
  | signal (s : Signal)
deriving DecidableEq

/-- The raw value handed to `process.exit`: a numeric status (`code`, the
interpretation used for the relay of line 174 in `program`), or — on the
signal pathway of line 127 — the signal *name* string that the signal
listener receives as its argument (the parameter is named `exitCode` in
the source, but for signal events it holds the signal name).  Node's
numeric interpretation of a non-numeric argument is runtime-dependent
(coerced to the success status 0 before Node 20; a thrown `TypeError`
under DEP0164 from Node 20 on, so the process dies with the generic
uncaught-exception status 1) and is never a signal-appropriate code; only
the value passed is modelled here. -/
inductive ExitArg where
  | code (c : Int)
  | signalName (s : Signal)
deriving DecidableEq

inductive HandlerOutcome where
  | ret (exitRequest : Option ExitArg)  -- returned; `some` = `process.exit` was entered (line 127)
  | threw                               -- `fs.unlinkSync` raised (file absent)
deriving DecidableEq

structure CleanState where
  fsPaths : List String
  didCleanup : Bool
deriving DecidableEq

/-- Effect of a successful `fs.unlinkSync`: the path no longer exists. -/
def unlinkAll (fs : List String) (p : String) : List String :=
  fs.filter (fun q => q ≠ p)

/-- The listener body of lines 115-129.  `didCleanup` is set before the
deletions (line 120), so a raising `unlinkSync` still leaves the guard
set. -/
def cleanupHandler (tmpPath buildInfoPath : String) (ev : Event)
    (st : CleanState) : CleanState × HandlerOutcome :=
  if st.didCleanup then (st, .ret none)
  else if st.fsPaths.contains tmpPath then
    -- the intermediate states after line 121 (`fs1`, inlined) and after the
    -- guarded deletion of lines 122-124 (`fs2`, inlined)
    ({ fsPaths :=
        if (unlinkAll st.fsPaths tmpPath).contains buildInfoPath then
          unlinkAll (unlinkAll st.fsPaths tmpPath) buildInfoPath
        else unlinkAll st.fsPaths tmpPath,
       didCleanup := true },
      match ev with
      | .exitEvent _ => .ret none
      | .signal s => .ret (some (.signalName s)))
  else
    ({ st with didCleanup := true }, .threw)

/-- Successive deliveries of exit/signal events to the registered
listener. -/
def runEvents (tmpPath buildInfoPath : String) :
    List Event → CleanState → CleanState
  | [], st => st
  | ev :: evs, st =>
    runEvents tmpPath buildInfoPath evs
      (cleanupHandler tmpPath buildInfoPath ev st).1

/-! ### Heap model of the synthesis (lines 82-99)

A value-level model cannot express "SourceConfig is never mutated in
place", so the spreads and the line-97 assignment are also modelled over
an explicit heap of objects addressed by references.  Arrays are inlined
(the program never mutates an array).  Allocation appends, so every
pre-existing reference stays valid. -/

inductive JVal where
  | vnull
  | vbool (b : Bool)
  | vnum (n : Int)
  | vstr (s : String)
  | varr (elems : List JVal)
  | vref (r : Nat)

abbrev HObj : Type := List (String × JVal)

structure Heap where
  objs : List HObj

def Heap.getObj (h : Heap) (r : Nat) : Option HObj := h.objs[r]?

def Heap.alloc (h : Heap) (o : HObj) : Heap × Nat :=
  (⟨h.objs ++ [o]⟩, h.objs.length)

def Heap.setObj (h : Heap) (r : Nat) (o : HObj) : Heap := ⟨h.objs.set r o⟩

/-- Member access `v.k` over the heap (cf. `member`). -/
def hMember (h : Heap) (v : JVal) (k : String) : Except JsError (Option JVal) :=
  match v with
  | .vnull => .error .typeError
  | .vref r => .ok ((h.getObj r).bind (fun fs => lookupField fs k))
  | _ => .ok none

/-- Spread `{...v}` over the heap: a shallow copy — field values
(references included) are shared, the receiving object is fresh. -/
def hSpreadVal (h : Heap) (v : Option JVal) : HObj :=
  match v with
  | some (.vref r) => (h.getObj r).getD []
  | some (.varr xs) => xs.enum.map (fun p => (toString p.1, p.2))
  | some (.vstr s) => s.data.enum.map (fun p => (toString p.1, JVal.vstr (String.singleton p.2)))
  | _ => []

/-- The fresh `compilerOptions` object of lines 84-87:
`{...tsconfig.compilerOptions, skipLibCheck: true}`. -/
def coObjOf (h : Heap) (co : Option JVal) : HObj :=
  setField (hSpreadVal h co) "skipLibCheck" (JVal.vbool true)

/-- The fresh top-level object of lines 82-90, with its `compilerOptions`
field referencing the fresh copy at `rco`. -/
def topObjOf (h : Heap) (tsconfig : JVal) (fileList : List String) (rco : Nat) : HObj :=
  setField (setField (setField (hSpreadVal h (some tsconfig))
    "compilerOptions" (JVal.vref rco))
    "files" (JVal.varr (fileList.map JVal.vstr)))
    "include" (JVal.varr [])

/-- Lines 82-90 over the heap: builds the fresh `compilerOptions` object
and the fresh top-level object, returning the new heap and a reference to
the latter. -/
def synthHeap (h : Heap) (tsconfig : JVal) (fileList : List String) :
    Except JsError (Heap × Nat) := do
  let co ← hMember h tsconfig "compilerOptions"
  let (h1, rco) := h.alloc (coObjOf h co)
  let (h2, rtop) := h1.alloc (topObjOf h tsconfig fileList rco)
  pure (h2, rtop)

/-- Line 97 over the heap:
`temporaryTsconfig.compilerOptions.tsBuildInfoFile = p` mutates the object
referenced by the `compilerOptions` field of `rtop`. -/
def assignTsBuildInfoFile (h : Heap) (rtop : Nat) (p : String) :
    Except JsError Heap := do
  let co ← hMember h (JVal.vref rtop) "compilerOptions"
  match co with
  | some (.vref r) =>
    pure (h.setObj r
      (setField ((h.getObj r).getD []) "tsBuildInfoFile" (JVal.vstr p)))
  | _ => throw .typeError

/-! ## Helper lemmas -/

theorem lookupField_setField_self {α : Type} (fs : List (String × α)) (k : String) (v : α) :
    lookupField (setField fs k v) k = some v := by
  induction fs with
  | nil => simp [setField, lookupField]
  | cons p rest ih =>
    by_cases h : p.1 = k
    · simp [setField, lookupField, h]
    · simp [setField, lookupField, h, ih]

theorem lookupField_setField_ne {α : Type} (fs : List (String × α)) (k k' : String) (v : α)
    (hne : k' ≠ k) : lookupField (setField fs k v) k' = lookupField fs k' := by
  have hkk : k ≠ k' := Ne.symm hne
  induction fs with
  | nil => simp [setField, lookupField, hkk]
  | cons p rest ih =>
    by_cases h : p.1 = k
    · subst h
      simp [setField, lookupField, hkk]
    · by_cases h' : p.1 = k'
      · simp [setField, lookupField, h, h', hne]
      · simp [setField, lookupField, h, h', ih]

theorem member_obj (fs : List (String × JSON)) (k : String) :
    member (JSON.obj fs) k = .ok (lookupField fs k) := rfl

/-- The value of `temporaryTsconfig` when the member read succeeds. -/
theorem temporaryTsconfig_ok (tsconfig : JSON) (fileList : List String)
    (co : Option JSON) (hm : member tsconfig "compilerOptions" = .ok co) :
    temporaryTsconfig tsconfig fileList = .ok (JSON.obj
      (setField
        (setField
          (setField (spreadFields tsconfig)
            "compilerOptions"
            (JSON.obj (setField (spreadOptFields co) "skipLibCheck" (JSON.bool true))))
          "files" (JSON.arr (fileList.map JSON.str)))
        "include" (JSON.arr []))) := by
  unfold temporaryTsconfig
  rw [hm]
  rfl

theorem temporaryTsconfig_error (tsconfig : JSON) (fileList : List String)
    (e : JsError) (hm : member tsconfig "compilerOptions" = .error e) :
    temporaryTsconfig tsconfig fileList = .error e := by
  unfold temporaryTsconfig
  rw [hm]
  rfl

/-- The value of `synthesize` when both fallible steps succeed. -/
theorem synthesize_ok (hash : String → String) (cwd : String) (cfg : JSON)
    (fs : List String) (t t2 : JSON)
    (h1 : temporaryTsconfig cfg fs = .ok t)
    (h2 : setTsBuildInfoFile t
        (resolveFromRoot cwd (tsBuildInfoFileName (hash (stringifyCompact t)))) = .ok t2) :
    synthesize hash cwd cfg fs = .ok
      { config := t2, content := stringifyPretty 0 t2,
        finalHash := hash (stringifyPretty 0 t2),
        tmpPath := resolveFromRoot cwd (temporaryTsconfigFileName (hash (stringifyPretty 0 t2))),
        buildInfoPath := resolveFromRoot cwd (tsBuildInfoFileName (hash (stringifyCompact t))) } := by
  unfold synthesize
  rw [h1]
  show setTsBuildInfoFile t _ >>= _ = _
  rw [h2]
  rfl

theorem synthesize_error_config (hash : String → String) (cwd : String) (cfg : JSON)
    (fs : List String) (e : JsError) (h1 : temporaryTsconfig cfg fs = .error e) :
    synthesize hash cwd cfg fs = .error e := by
  unfold synthesize
  rw [h1]
  rfl

theorem synthesize_error_assign (hash : String → String) (cwd : String) (cfg : JSON)
    (fs : List String) (t : JSON) (e : JsError)
    (h1 : temporaryTsconfig cfg fs = .ok t)
    (h2 : setTsBuildInfoFile t
        (resolveFromRoot cwd (tsBuildInfoFileName (hash (stringifyCompact t)))) = .error e) :
    synthesize hash cwd cfg fs = .error e := by
  unfold synthesize
  rw [h1]
  show setTsBuildInfoFile t _ >>= _ = _
  rw [h2]
  rfl

/-- Inversion: what a successful `synthesize` result is made of. -/
theorem synthesize_inv (hash : String → String) (cwd : String) (cfg : JSON)
    (fs : List String) (r : SynthesisResult)
    (h : synthesize hash cwd cfg fs = .ok r) :
    ∃ t t2, temporaryTsconfig cfg fs = .ok t ∧
      setTsBuildInfoFile t
        (resolveFromRoot cwd (tsBuildInfoFileName (hash (stringifyCompact t)))) = .ok t2 ∧
      r = { config := t2, content := stringifyPretty 0 t2,
            finalHash := hash (stringifyPretty 0 t2),
            tmpPath := resolveFromRoot cwd (temporaryTsconfigFileName (hash (stringifyPretty 0 t2))),
            buildInfoPath := resolveFromRoot cwd (tsBuildInfoFileName (hash (stringifyCompact t))) } := by
  cases h1 : temporaryTsconfig cfg fs with
  | error e =>
    rw [synthesize_error_config hash cwd cfg fs e h1] at h
    exact absurd h (fun hh => nomatch hh)
  | ok t =>
    cases h2 : setTsBuildInfoFile t
        (resolveFromRoot cwd (tsBuildInfoFileName (hash (stringifyCompact t)))) with
    | error e =>
      rw [synthesize_error_assign hash cwd cfg fs t e h1 h2] at h
      exact absurd h (fun hh => nomatch hh)
    | ok t2 =>
      refine ⟨t, t2, rfl, h2, ?_⟩
      have := (synthesize_ok hash cwd cfg fs t t2 h1 h2).symm.trans h
      injection this with this
      exact this.symm

/-- Cancellation for the fingerprint-derived artifact name. -/
theorem temporaryTsconfigPath_inj (cwd x y : String)
    (h : resolveFromRoot cwd (temporaryTsconfigFileName x)
       = resolveFromRoot cwd (temporaryTsconfigFileName y)) : x = y := by
  have hd := congrArg String.data h
  simp only [resolveFromRoot, temporaryTsconfigFileName, String.data_append,
    List.append_assoc] at hd
  exact String.ext (List.append_cancel_right
    (List.append_cancel_left (List.append_cancel_left (List.append_cancel_left hd))))

/-- Reduction of a successful bind in `Except`. -/
theorem except_bind_ok {ε α β : Type} (a : α) (f : α → Except ε β) :
    (Except.ok (ε := ε) a >>= f) = f a := rfl

/-- Value of `setTsBuildInfoFile` on an object whose `compilerOptions` is an object. -/
theorem setTsBuildInfoFile_ok (tfs cofs : List (String × JSON)) (p : String)
    (hco : lookupField tfs "compilerOptions" = some (JSON.obj cofs)) :
    setTsBuildInfoFile (JSON.obj tfs) p = .ok (JSON.obj
      (setField tfs "compilerOptions"
        (JSON.obj (setField cofs "tsBuildInfoFile" (JSON.str p))))) := by
  unfold setTsBuildInfoFile
  rw [member_obj, except_bind_ok, hco]
  rfl

/-- `setTsBuildInfoFile` always succeeds on the object `temporaryTsconfig`
just built (its `compilerOptions` is an object by construction). -/
theorem setTsBuildInfoFile_of_temporary (cfg : JSON) (fileList : List String)
    (t : JSON) (p : String) (h : temporaryTsconfig cfg fileList = .ok t) :
    ∃ t2, setTsBuildInfoFile t p = .ok t2 := by
  cases hm : member cfg "compilerOptions" with
  | error e =>
    rw [temporaryTsconfig_error _ _ _ hm] at h
    exact absurd h (fun hh => nomatch hh)
  | ok co =>
    rw [temporaryTsconfig_ok _ _ _ hm] at h
    injection h with h
    subst h
    refine ⟨_, setTsBuildInfoFile_ok
      (setField
        (setField
          (setField (spreadFields cfg)
            "compilerOptions"
            (JSON.obj (setField (spreadOptFields co) "skipLibCheck" (JSON.bool true))))
          "files" (JSON.arr (fileList.map JSON.str)))
        "include" (JSON.arr []))
      (setField (spreadOptFields co) "skipLibCheck" (JSON.bool true)) p ?_⟩
    rw [lookupField_setField_ne _ _ _ _ (by decide),
      lookupField_setField_ne _ _ _ _ (by decide), lookupField_setField_self]

/-! ## Claims -/

/-- C1: For every loaded SourceConfig and every non-empty recognized file
list, the synthesized TransientConfig has `files` equal to exactly the
input file list (order preserved, duplicates allowed), `include` equal to
the empty list, and `compilerOptions.skipLibCheck` equal to `true`,
regardless of the values `files`, `include`, or `skipLibCheck` had in
SourceConfig (override, not merge). -/
theorem c1_transient_config_overrides (tsconfig : JSON) (fileList : List String)
    (t : JSON) (hne : fileList ≠ [])
    (h : temporaryTsconfig tsconfig fileList = .ok t) :
    member t "files" = .ok (some (JSON.arr (fileList.map JSON.str))) ∧
    member t "include" = .ok (some (JSON.arr [])) ∧
    ∃ cofs, member t "compilerOptions" = .ok (some (JSON.obj cofs)) ∧
      lookupField cofs "skipLibCheck" = some (JSON.bool true) := by
  cases hm : member tsconfig "compilerOptions" with
  | error e =>
    rw [temporaryTsconfig_error tsconfig fileList e hm] at h
    exact absurd h (fun hh => nomatch hh)
  | ok co =>
    rw [temporaryTsconfig_ok tsconfig fileList co hm] at h
    injection h with h
    subst h
    refine ⟨?_, ?_, ?_⟩
    · rw [member_obj, lookupField_setField_ne _ _ _ _ (by decide),
        lookupField_setField_self]
    · rw [member_obj, lookupField_setField_self]
    · refine ⟨setField (spreadOptFields co) "skipLibCheck" (JSON.bool true), ?_,
        lookupField_setField_self _ _ _⟩
      rw [member_obj, lookupField_setField_ne _ _ _ _ (by decide),
        lookupField_setField_ne _ _ _ _ (by decide), lookupField_setField_self]

/-- Witness for C1 at a SourceConfig that sets all three overridden keys
adversarially, with a duplicated input file. -/
theorem c1_transient_config_overrides_witness :
    ∃ t, temporaryTsconfig (JSON.obj [("files", JSON.arr [JSON.str "old.ts"]),
        ("include", JSON.arr [JSON.str "src"]),
        ("compilerOptions", JSON.obj [("skipLibCheck", JSON.bool false)])])
        ["a.ts", "a.ts"] = .ok t ∧
      (member t "files" = .ok (some (JSON.arr (["a.ts", "a.ts"].map JSON.str))) ∧
       member t "include" = .ok (some (JSON.arr [])) ∧
       ∃ cofs, member t "compilerOptions" = .ok (some (JSON.obj cofs)) ∧
         lookupField cofs "skipLibCheck" = some (JSON.bool true)) := by
  refine ⟨_, rfl, ?_⟩
  exact c1_transient_config_overrides
    (JSON.obj [("files", JSON.arr [JSON.str "old.ts"]),
      ("include", JSON.arr [JSON.str "src"]),
      ("compilerOptions", JSON.obj [("skipLibCheck", JSON.bool false)])])
    ["a.ts", "a.ts"] _ (by decide) rfl

/-- C9 counterexample: a loaded document whose top level is a number, and
one whose top level is an array, both synthesize successfully — the
program raises no `ConfigShapeError` for non-mapping documents (JS spread
semantics accept them). -/
theorem c9_counterexample :
    (synthesize id "/w" (JSON.num 42) ["a.ts"]).isOk = true ∧
    (synthesize id "/w" (JSON.arr [JSON.str "x"]) ["a.ts"]).isOk = true := by
  decide

/-- C9 (amended): only a `null` top-level document makes config synthesis
fail (an uncaught `TypeError` when reading `compilerOptions` of `null`);
every other loaded document — mapping or not — synthesizes successfully,
and no `ConfigShapeError` exists in the program. -/
theorem c9_nonmapping_handling (hash : String → String) (cwd : String)
    (cfg : JSON) (fileList : List String) :
    (cfg = JSON.null → synthesize hash cwd cfg fileList = .error .typeError) ∧
    (cfg ≠ JSON.null → (synthesize hash cwd cfg fileList).isOk = true) := by
  constructor
  · intro h
    subst h
    exact synthesize_error_config _ _ _ _ _ (temporaryTsconfig_error _ _ _ rfl)
  · intro h
    have hm : ∃ co, member cfg "compilerOptions" = .ok co := by
      cases cfg with
      | null => exact absurd rfl h
      | bool b => exact ⟨_, rfl⟩
      | num n => exact ⟨_, rfl⟩
      | str s => exact ⟨_, rfl⟩
      | arr xs => exact ⟨_, rfl⟩
      | obj fs => exact ⟨_, rfl⟩
    obtain ⟨co, hm⟩ := hm
    obtain ⟨t, ht⟩ : ∃ t, temporaryTsconfig cfg fileList = .ok t :=
      ⟨_, temporaryTsconfig_ok cfg fileList co hm⟩
    obtain ⟨t2, ht2⟩ := setTsBuildInfoFile_of_temporary cfg fileList t
      (resolveFromRoot cwd (tsBuildInfoFileName (hash (stringifyCompact t)))) ht
    rw [synthesize_ok hash cwd cfg fileList t t2 ht ht2]
    rfl

/-- Witness for C9's amended statement: `null` fails, a non-`null`
non-mapping succeeds. -/
theorem c9_nonmapping_handling_witness :
    synthesize id "/w" JSON.null ["a.ts"] = .error .typeError ∧
    (synthesize id "/w" (JSON.bool true) ["a.ts"]).isOk = true :=
  ⟨(c9_nonmapping_handling id "/w" JSON.null ["a.ts"]).1 rfl,
   (c9_nonmapping_handling id "/w" (JSON.bool true) ["a.ts"]).2 (by decide)⟩

/-- C10: file classification is position- and context-independent — an
argument is in `files` exactly when its text ends in a recognized
extension, wherever it occurs; consequently no forwarded argument has a
recognized extension (every textual match is removed, not only the
occurrence that named the file). -/
theorem c10_position_independent_classification (argv : List String) :
    (∀ a, a ∈ files argv ↔ (a ∈ argv ∧ isRecognizedFile a = true)) ∧
    (∀ a, a ∈ remainingArgvToForward argv → isRecognizedFile a = false) := by
  constructor
  · intro a
    simp [files, List.mem_filter]
  · intro a ha
    have hsub : a ∈ argv.filter (fun x => !(files argv).contains x) := by
      unfold remainingArgvToForward at ha
      cases hidx : argvProjectIndex argv with
      | none => rw [hidx] at ha; exact ha
      | some i =>
        rw [hidx] at ha
        rcases List.mem_append.mp ha with h | h
        · exact List.take_subset _ _ h
        · exact List.drop_subset _ _ h
    have h2 := List.mem_filter.mp hsub
    have hnot : a ∉ files argv := by
      intro hmem
      have hc : (files argv).contains a = true := List.elem_iff.mpr hmem
      rw [hc] at h2
      exact absurd h2.2 (by decide)
    cases hval : isRecognizedFile a with
    | false => rfl
    | true => exact absurd (List.mem_filter.mpr ⟨h2.1, hval⟩) hnot

/-- Witness for C10: a forwarded flag has no recognized extension. -/
theorem c10_position_independent_classification_witness :
    isRecognizedFile "--noEmit" = false :=
  (c10_position_independent_classification ["--noEmit", "x.ts"]).2 "--noEmit" (by decide)

/-- C5 (code bug, evaluation at the failing input): with
`argv = ["file.ts", "-p", "custom.json", "--noEmit"]` the project-flag
index is computed in the unfiltered `argv` (index 1) but the splice is
applied to the file-filtered list `["-p", "custom.json", "--noEmit"]`, so
the code forwards `["-p"]` — keeping the project flag and dropping
`--noEmit` — instead of the claimed original-minus-files-minus-pair
`["--noEmit"]`. -/
theorem c5_forwarding_bug_eval :
    remainingArgvToForward ["file.ts", "-p", "custom.json", "--noEmit"] = ["-p"] ∧
    remainingArgvToForward ["file.ts", "-p", "custom.json", "--noEmit"] ≠ ["--noEmit"] ∧
    argvProjectIndex ["file.ts", "-p", "custom.json", "--noEmit"] = some 1 ∧
    files ["file.ts", "-p", "custom.json", "--noEmit"] = ["file.ts"] := by
  decide

/-- C7: any argument vector containing `-h` or `--help`, or containing no
recognized file, makes the program print usage and exit 0 — the
`helpExit` outcome, which by construction of `program` precedes synthesis,
the artifact write and the spawn. -/
theorem c7_help_exit (env : ProgEnv) (argv : List String)
    (h : argv.contains "-h" = true ∨ argv.contains "--help" = true ∨ files argv = []) :
    program env argv = .helpExit 0 := by
  have hs : showHelp argv = true := by
    unfold showHelp
    rcases h with h | h | h
    · rw [h]
      rfl
    · rw [h]
      cases argv.contains "-h" <;> rfl
    · rw [h]
      cases argv.contains "-h" <;> cases argv.contains "--help" <;> rfl
  unfold program
  rw [hs]
  rfl

/-- Witness for C7 with `-h`. -/
theorem c7_help_exit_witness :
    program ⟨"/w", id, JSON.obj [], true, false, false, some 0⟩ ["-h"] = .helpExit 0 :=
  c7_help_exit _ _ (Or.inl (by decide))

/-- C6: once past help and synthesis, the process exits with the child's
own status verbatim when the child completed; when `tsc` cannot be
resolved, or the child cannot be spawned (`result.status === null`), it
prints one diagnostic line to stderr and exits 1. -/
theorem c6_exit_status_relay (env : ProgEnv) (argv : List String) (r : SynthesisResult)
    (hh : showHelp argv = false)
    (hs : synthesize env.hash env.cwd env.tsconfigDoc (files argv) = .ok r) :
    (tscResolved env = false →
      program env argv = .resolveFail "Failed to resolve tsc executable." 1) ∧
    (tscResolved env = true → env.spawnStatus = none →
      program env argv
        = .spawnFail "Failed to spawn tsc." 1
            ("-p" :: r.tmpPath :: remainingArgvToForward argv)) ∧
    (∀ c : Int, tscResolved env = true → env.spawnStatus = some c →
      program env argv = .completed c ("-p" :: r.tmpPath :: remainingArgvToForward argv)) := by
  unfold program
  rw [hh, hs]
  refine ⟨?_, ?_, ?_⟩
  · intro hres
    rw [hres]
    rfl
  · intro hres hspawn
    rw [hres, hspawn]
    rfl
  · intro c hres hspawn
    rw [hres, hspawn]
    rfl

/-- Witness for C6: a resolvable checker whose child exits 2 makes the
program exit 2 with the spawn arguments of line 158. -/
theorem c6_exit_status_relay_witness :
    ∃ r, synthesize id "/w" (JSON.obj []) (files ["a.ts"]) = .ok r ∧
      program ⟨"/w", id, JSON.obj [], true, false, false, some 2⟩ ["a.ts"]
        = .completed 2 ("-p" :: r.tmpPath :: remainingArgvToForward ["a.ts"]) := by
  refine ⟨_, rfl, ?_⟩
  exact (c6_exit_status_relay ⟨"/w", id, JSON.obj [], true, false, false, some 2⟩
    ["a.ts"] _ (by decide) rfl).2.2 2 rfl rfl

/-- C2 (amended): the artifact path is a function of the synthesized
TransientConfig alone.  Identical synthesized configs (in particular,
identical SourceConfig content and file list) give identical transient and
build-cache paths across invocations in the same working directory; and
when the fingerprint is injective, different final serialized contents
give different transient paths.  Differences confined to SourceConfig keys
that synthesis overrides (`files`, `include`,
`compilerOptions.skipLibCheck`) vanish before fingerprinting and so yield
identical paths (see the counterexample), which is content-identical and
hence safe. -/
theorem c2_fingerprint_paths (hash : String → String) (cwd : String)
    (cfgA cfgB : JSON) (fsA fsB : List String) (rA rB : SynthesisResult)
    (hA : synthesize hash cwd cfgA fsA = .ok rA)
    (hB : synthesize hash cwd cfgB fsB = .ok rB) :
    (temporaryTsconfig cfgA fsA = temporaryTsconfig cfgB fsB →
      rA.tmpPath = rB.tmpPath ∧ rA.buildInfoPath = rB.buildInfoPath) ∧
    (Function.Injective hash → rA.content ≠ rB.content →
      rA.tmpPath ≠ rB.tmpPath) := by
  obtain ⟨tA, t2A, h1A, h2A, hrA⟩ := synthesize_inv hash cwd cfgA fsA rA hA
  obtain ⟨tB, t2B, h1B, h2B, hrB⟩ := synthesize_inv hash cwd cfgB fsB rB hB
  subst hrA
  subst hrB
  constructor
  · intro heq
    have htt : tA = tB := Except.ok.inj ((h1A.symm.trans heq).trans h1B)
    subst htt
    have ht2 : t2A = t2B := Except.ok.inj (h2A.symm.trans h2B)
    subst ht2
    exact ⟨rfl, rfl⟩
  · intro hinj hcont hpath
    have hp : resolveFromRoot cwd (temporaryTsconfigFileName (hash (stringifyPretty 0 t2A)))
        = resolveFromRoot cwd (temporaryTsconfigFileName (hash (stringifyPretty 0 t2B))) := hpath
    exact hcont (hinj (temporaryTsconfigPath_inj cwd _ _ hp))

set_option maxRecDepth 100000 in
/-- C2 counterexample: two SourceConfigs that differ — only in the
overridden key `compilerOptions.skipLibCheck` — synthesize, with the same
file list, the very same TransientConfig; the fingerprint inputs coincide,
so the derived transient and build-cache paths are identical, refuting
"any difference in SourceConfig or file list gives a different artifact
path". -/
theorem c2_counterexample :
    (JSON.obj [("compilerOptions", JSON.obj [("skipLibCheck", JSON.bool false)])]
      ≠ JSON.obj [("compilerOptions", JSON.obj [("skipLibCheck", JSON.bool true)])]) ∧
    temporaryTsconfig
        (JSON.obj [("compilerOptions", JSON.obj [("skipLibCheck", JSON.bool false)])])
        ["a.ts"]
      = temporaryTsconfig
        (JSON.obj [("compilerOptions", JSON.obj [("skipLibCheck", JSON.bool true)])])
        ["a.ts"] ∧
    ∃ rA rB,
      synthesize id "/w"
        (JSON.obj [("compilerOptions", JSON.obj [("skipLibCheck", JSON.bool false)])])
        ["a.ts"] = .ok rA ∧
      synthesize id "/w"
        (JSON.obj [("compilerOptions", JSON.obj [("skipLibCheck", JSON.bool true)])])
        ["a.ts"] = .ok rB ∧
      rA.tmpPath = rB.tmpPath ∧ rA.buildInfoPath = rB.buildInfoPath := by
  exact ⟨by decide, by decide, _, _, rfl, rfl, by decide, by decide⟩

set_option maxRecDepth 100000 in
/-- Witness for C2's amended statement: with the identity digest
(injective) and contents that differ, the derived paths differ. -/
theorem c2_fingerprint_paths_witness :
    ∃ rA rB,
      synthesize id "/w" (JSON.obj []) ["a.ts"] = .ok rA ∧
      synthesize id "/w" (JSON.obj []) ["b.ts"] = .ok rB ∧
      rA.tmpPath ≠ rB.tmpPath := by
  refine ⟨_, _, rfl, rfl, ?_⟩
  exact (c2_fingerprint_paths id "/w" (JSON.obj []) (JSON.obj [])
    ["a.ts"] ["b.ts"] _ _ rfl rfl).2 (fun a b hh => hh) (by decide)

/-- Removing an already-absent path is a no-op. -/
theorem unlinkAll_of_not_mem (fs : List String) (p : String) (h : p ∉ fs) :
    unlinkAll fs p = fs := by
  refine List.filter_eq_self.mpr ?_
  intro q hq
  simp only [decide_eq_true_eq]
  intro he
  exact h (he ▸ hq)

/-- The guarded build-cache deletion of lines 122-124 always produces the
filesystem without that path (the guard only prevents the throwing call,
it does not change the resulting state). -/
theorem cleanup_fs2_eq (fs1 : List String) (b : String) :
    (if fs1.contains b = true then unlinkAll fs1 b else fs1) = unlinkAll fs1 b := by
  cases hc : fs1.contains b with
  | true => simp [hc]
  | false =>
    have hb : b ∉ fs1 := fun hm => by
      have hc' : fs1.elem b = false := hc
      exact absurd ((List.elem_iff.mpr hm).symm.trans hc') (by decide)
    simp [hc, unlinkAll_of_not_mem fs1 b hb]

/-- The first effective run of the listener body from a not-yet-cleaned
state with the transient config present. -/
theorem cleanupHandler_fires (tmpPath buildInfoPath : String) (ev : Event)
    (fs : List String) (hc : fs.contains tmpPath = true) :
    cleanupHandler tmpPath buildInfoPath ev ⟨fs, false⟩ =
      (⟨unlinkAll (unlinkAll fs tmpPath) buildInfoPath, true⟩,
        match ev with
        | .exitEvent _ => .ret none
        | .signal s => .ret (some (.signalName s))) := by
  unfold cleanupHandler
  rw [hc, cleanup_fs2_eq]
  rfl

/-- C3 (code bug, evaluation at the failing input): a SIGHUP, SIGINT or
SIGTERM delivered after the transient config was written (filesystem holds
the config and the build cache, `didCleanup` still false) does run the
cleanup path — the transient configuration file is gone afterwards — but
the handler then calls `process.exit` with the *signal name* it received
as listener argument (the variable named `exitCode` on line 115 holds
`'SIGINT'` etc. for signal events), and with no numeric status at all.
Node coerces the non-numeric argument to the success status 0 before
Node 20 and throws under DEP0164 from Node 20 on (generic
uncaught-exception status 1), so the process never terminates with a
signal-appropriate code, and on older runtimes terminates with success —
against the claim's conclusion. -/
theorem c3_signal_exit_bug_eval :
    ("t.json" ∉ (cleanupHandler "t.json" "b.info" (.signal .sigint)
        ⟨["t.json", "b.info"], false⟩).1.fsPaths) ∧
    ((cleanupHandler "t.json" "b.info" (.signal .sighup)
        ⟨["t.json", "b.info"], false⟩).2 = .ret (some (.signalName .sighup))) ∧
    ((cleanupHandler "t.json" "b.info" (.signal .sigint)
        ⟨["t.json", "b.info"], false⟩).2 = .ret (some (.signalName .sigint))) ∧
    ((cleanupHandler "t.json" "b.info" (.signal .sigterm)
        ⟨["t.json", "b.info"], false⟩).2 = .ret (some (.signalName .sigterm))) ∧
    (∀ c : Int, (cleanupHandler "t.json" "b.info" (.signal .sigint)
        ⟨["t.json", "b.info"], false⟩).2 ≠ .ret (some (.code c))) := by
  have heval : (cleanupHandler "t.json" "b.info" (.signal .sigint)
      ⟨["t.json", "b.info"], false⟩).2 = .ret (some (.signalName .sigint)) := by
    decide
  exact ⟨by decide, by decide, heval, by decide,
    fun c h => nomatch heval.symm.trans h⟩

/-- C4: cleanup is idempotent — once `didCleanup` is set, every further
exit or signal delivery (any number, in any order) is a no-op and deletes
nothing; the first effective invocation removes the transient config and
exactly the build-cache path — a no-op, not an error, when the build cache
is already absent — and does not throw. -/
theorem c4_cleanup_idempotent (tmpPath buildInfoPath : String) :
    (∀ ev st, st.didCleanup = true →
      cleanupHandler tmpPath buildInfoPath ev st = (st, .ret none)) ∧
    (∀ evs st, st.didCleanup = true →
      runEvents tmpPath buildInfoPath evs st = st) ∧
    (∀ ev fs, fs.contains tmpPath = true →
      (cleanupHandler tmpPath buildInfoPath ev ⟨fs, false⟩).1
        = ⟨unlinkAll (unlinkAll fs tmpPath) buildInfoPath, true⟩ ∧
      (cleanupHandler tmpPath buildInfoPath ev ⟨fs, false⟩).2 ≠ .threw) := by
  have hfirst : ∀ ev st, st.didCleanup = true →
      cleanupHandler tmpPath buildInfoPath ev st = (st, .ret none) := by
    intro ev st h
    unfold cleanupHandler
    rw [h]
    rfl
  refine ⟨hfirst, ?_, ?_⟩
  · intro evs
    induction evs with
    | nil => intro st h; rfl
    | cons ev evs ih =>
      intro st h
      show runEvents tmpPath buildInfoPath evs (cleanupHandler tmpPath buildInfoPath ev st).1 = st
      rw [hfirst ev st h]
      exact ih st h
  · intro ev fs hc
    rw [cleanupHandler_fires tmpPath buildInfoPath ev fs hc]
    refine ⟨rfl, ?_⟩
    cases ev with
    | exitEvent c => exact fun hth => nomatch hth
    | signal s => exact fun hth => nomatch hth

/-- Witness for C4: a no-op second delivery, a no-op event sequence, and a
first effective cleanup with the build cache absent. -/
theorem c4_cleanup_idempotent_witness :
    cleanupHandler "t.json" "b.info" (.exitEvent 0) ⟨["x.txt"], true⟩
      = (⟨["x.txt"], true⟩, .ret none) ∧
    runEvents "t.json" "b.info" [.exitEvent 0, .signal .sigint] ⟨["x.txt"], true⟩
      = ⟨["x.txt"], true⟩ ∧
    ((cleanupHandler "t.json" "b.info" (.exitEvent 0) ⟨["t.json"], false⟩).1
        = ⟨unlinkAll (unlinkAll ["t.json"] "t.json") "b.info", true⟩ ∧
      (cleanupHandler "t.json" "b.info" (.exitEvent 0) ⟨["t.json"], false⟩).2 ≠ .threw) :=
  ⟨(c4_cleanup_idempotent "t.json" "b.info").1 _ _ rfl,
   (c4_cleanup_idempotent "t.json" "b.info").2.1 _ _ rfl,
   (c4_cleanup_idempotent "t.json" "b.info").2.2 _ _ (by decide)⟩

theorem hMember_vref (h : Heap) (r : Nat) (k : String) :
    hMember h (JVal.vref r) k
      = .ok ((h.getObj r).bind (fun fs => lookupField fs k)) := rfl

theorem synthHeap_ok (h : Heap) (tsconfig : JVal) (fileList : List String)
    (co : Option JVal) (hm : hMember h tsconfig "compilerOptions" = .ok co) :
    synthHeap h tsconfig fileList = .ok
      (⟨(h.objs ++ [coObjOf h co]) ++
          [topObjOf h tsconfig fileList h.objs.length]⟩,
       (h.objs ++ [coObjOf h co]).length) := by
  unfold synthHeap Heap.alloc
  rw [hm]
  rfl

/-- Looking up `compilerOptions` in the fresh top-level object yields the
reference to the fresh `compilerOptions` copy. -/
theorem topObjOf_lookup (h : Heap) (tsconfig : JVal) (fileList : List String)
    (rco : Nat) :
    lookupField (topObjOf h tsconfig fileList rco) "compilerOptions"
      = some (JVal.vref rco) := by
  unfold topObjOf
  rw [lookupField_setField_ne _ _ _ _ (by decide),
    lookupField_setField_ne _ _ _ _ (by decide), lookupField_setField_self]

/-- The value of `assignTsBuildInfoFile` when `compilerOptions` is a
reference. -/
theorem assignTsBuildInfoFile_ok (h : Heap) (rtop : Nat) (p : String) (rco : Nat)
    (hco : hMember h (JVal.vref rtop) "compilerOptions" = .ok (some (JVal.vref rco))) :
    assignTsBuildInfoFile h rtop p = .ok
      (h.setObj rco
        (setField ((h.getObj rco).getD []) "tsBuildInfoFile" (JVal.vstr p))) := by
  unfold assignTsBuildInfoFile
  rw [hco, except_bind_ok]
  rfl

theorem synthHeap_error (h : Heap) (tsconfig : JVal) (fileList : List String)
    (e : JsError) (hm : hMember h tsconfig "compilerOptions" = .error e) :
    synthHeap h tsconfig fileList = .error e := by
  unfold synthHeap
  rw [hm]
  rfl

/-- C8: config synthesis leaves the loaded SourceConfig unchanged.  After
the transient config is built (lines 82-90) and
`compilerOptions.tsBuildInfoFile` is assigned (line 97), every object that
existed in the heap before synthesis — in particular the loaded config
object and its `compilerOptions` sub-object — still holds its original
fields: the spreads shallow-copy into fresh objects and the assignment
mutates only the fresh `compilerOptions` copy.  Member reads on the
SourceConfig value are unchanged. -/
theorem c8_source_config_unmutated (h : Heap) (tsconfig : JVal)
    (fileList : List String) (p : String) (h2 : Heap) (rtop : Nat) (h3 : Heap)
    (hsyn : synthHeap h tsconfig fileList = .ok (h2, rtop))
    (hassign : assignTsBuildInfoFile h2 rtop p = .ok h3) :
    (∀ r, r < h.objs.length → h3.getObj r = h.getObj r) ∧
    (∀ rt k, tsconfig = JVal.vref rt → rt < h.objs.length →
      hMember h3 tsconfig k = hMember h tsconfig k) := by
  cases hm : hMember h tsconfig "compilerOptions" with
  | error e =>
    rw [synthHeap_error h tsconfig fileList e hm] at hsyn
    exact absurd hsyn (fun hh => nomatch hh)
  | ok co =>
    rw [synthHeap_ok h tsconfig fileList co hm] at hsyn
    injection hsyn with hsyn
    injection hsyn with hsynh hsynr
    subst hsynh
    subst hsynr
    have hframe : ∀ r, r < h.objs.length → h3.getObj r = h.getObj r := by
      have hget : Heap.getObj
          ⟨(h.objs ++ [coObjOf h co]) ++
            [topObjOf h tsconfig fileList h.objs.length]⟩
          ((h.objs ++ [coObjOf h co]).length)
          = some (topObjOf h tsconfig fileList h.objs.length) := by
        unfold Heap.getObj
        exact List.getElem?_concat_length _ _
      have hco2 : hMember
          ⟨(h.objs ++ [coObjOf h co]) ++
            [topObjOf h tsconfig fileList h.objs.length]⟩
          (JVal.vref ((h.objs ++ [coObjOf h co]).length)) "compilerOptions"
          = .ok (some (JVal.vref h.objs.length)) := by
        rw [hMember_vref, hget]
        exact congrArg Except.ok (topObjOf_lookup h tsconfig fileList h.objs.length)
      rw [assignTsBuildInfoFile_ok _ _ _ _ hco2] at hassign
      injection hassign with hassign
      intro r hr
      rw [← hassign]
      unfold Heap.setObj Heap.getObj
      rw [List.getElem?_set_ne (Nat.ne_of_gt hr)]
      rw [List.getElem?_append_left
        (Nat.lt_of_lt_of_le hr (by rw [List.length_append]; omega))]
      rw [List.getElem?_append_left hr]
    refine ⟨hframe, ?_⟩
    intro rt k hts hrt
    subst hts
    rw [hMember_vref, hMember_vref, hframe rt hrt]

/-- Witness for C8 on a two-object heap: config object 0 references its
`compilerOptions` object 1; after synthesis and the line-97 assignment
both survive unchanged. -/
theorem c8_source_config_unmutated_witness :
    ∃ h2 rtop h3,
      synthHeap ⟨[[("compilerOptions", JVal.vref 1)], [("strict", JVal.vbool true)]]⟩
        (JVal.vref 0) ["a.ts"] = .ok (h2, rtop) ∧
      assignTsBuildInfoFile h2 rtop "/w/tsc-files-x.tsbuildinfo" = .ok h3 ∧
      h3.getObj 1
        = Heap.getObj ⟨[[("compilerOptions", JVal.vref 1)],
            [("strict", JVal.vbool true)]]⟩ 1 ∧
      hMember h3 (JVal.vref 0) "compilerOptions"
        = hMember ⟨[[("compilerOptions", JVal.vref 1)],
            [("strict", JVal.vbool true)]]⟩ (JVal.vref 0) "compilerOptions" := by
  refine ⟨_, _, _, rfl, rfl, ?_, ?_⟩
  · exact (c8_source_config_unmutated
      ⟨[[("compilerOptions", JVal.vref 1)], [("strict", JVal.vbool true)]]⟩
      (JVal.vref 0) ["a.ts"] "/w/tsc-files-x.tsbuildinfo" _ _ _ rfl rfl).1 1 (by decide)
  · exact (c8_source_config_unmutated
      ⟨[[("compilerOptions", JVal.vref 1)], [("strict", JVal.vbool true)]]⟩
      (JVal.vref 0) ["a.ts"] "/w/tsc-files-x.tsbuildinfo" _ _ _ rfl rfl).2 0
      "compilerOptions" rfl (by decide)

end TscFiles
